import Mathlib

/-!
Shallow embedding of the postgres-crud-app server (src/server.js): a single
`users` table behind five Express handlers.  The database state is a list of
rows plus the SERIAL counter; timestamps are a logical clock (Nat).  Each
handler is translated from the corresponding request handler in
src/server.js; the SQL statements are modelled row-by-row following the
PostgreSQL semantics of the schema created in initializeDatabase
(id SERIAL PRIMARY KEY, email UNIQUE NOT NULL, created_at / updated_at
DEFAULT CURRENT_TIMESTAMP).
-/

/-- A row of the `users` table (src/server.js lines 30-39).  `age` is the
nullable INT column; `id` is the SERIAL primary key (an Int: the id path
parameter is cast by PostgreSQL to a possibly negative integer). -/
structure User where
  id : Int
  name : String
  email : String
  age : Option Int
  created_at : Nat
  updated_at : Nat
deriving DecidableEq

/-- The persistent store: the rows of the `users` table and the next value
of the SERIAL sequence backing `id`. -/
structure DB where
  rows : List User
  nextId : Int
deriving DecidableEq

/-- The freshly initialized table: no rows, SERIAL sequence at 1. -/
def dbInit : DB := DB.mk [] 1

/-- The store errors the handlers distinguish: error code 23505
(unique-constraint violation, tested at lines 79 and 131 of src/server.js)
and the invalid-text-cast error raised when a non-integer id string is
bound to an integer column (any other code falls into the catch-all 500
branches). -/
inductive QueryError where
  | uniqueViolation
  | castError
deriving DecidableEq

/-- The input of a render call `res.render('index', ...)`.  `editingUser`
distinguishes the field being absent from the render input (`none`, as in
the error renders at lines 57, 80 and 82) from being supplied as null
(`some none`, line 54) or as a record (`some (some u)`, line 99).
Likewise `error` is `none` when no error field is supplied. -/
structure RenderInput where
  users : List User
  editingUser : Option (Option User)
  error : Option String
deriving DecidableEq

/-- An HTTP response produced by one of the handlers: an HTML render, a
redirect, a JSON error `{error}`, a JSON `{success:true, user}`, a JSON
`{success:true, message}`, or the health payload `{status:'OK'}`. -/
inductive Response where
  | renderPage (status : Nat) (input : RenderInput)
  | redirectTo (status : Nat) (location : String)
  | jsonError (status : Nat) (message : String)
  | jsonUser (status : Nat) (user : User)
  | jsonMessage (status : Nat) (message : String)
  | jsonOk (status : Nat)
deriving DecidableEq

/-- The HTTP status code of a response. -/
def Response.status : Response → Nat
  | Response.renderPage s _ => s
  | Response.redirectTo s _ => s
  | Response.jsonError s _ => s
  | Response.jsonUser s _ => s
  | Response.jsonMessage s _ => s
  | Response.jsonOk s => s

/-- Request body `{name, email, age}` of the create and update endpoints.
A missing name or email is modelled as the empty string (both are falsy
under the `!name || !email` check); `age` is the optional JSON integer. -/
structure ReqBody where
  name : String
  email : String
  age : Option Int
deriving DecidableEq

/-- JavaScript `age || null` (lines 73 and 120 of src/server.js): `null`
and the falsy integer 0 map to null, every other integer to itself. -/
def jsOrNull : Option Int → Option Int
  | none => none
  | some n => if n = 0 then none else some n

/-- Accumulates decimal digits; fails at the first non-digit character. -/
def digitsToNat (acc : Nat) : List Char → Option Nat
  | [] => some acc
  | c :: cs =>
      if '0' ≤ c ∧ c ≤ '9' then digitsToNat (acc * 10 + (c.toNat - 48)) cs
      else none

/-- The whitespace characters int4in skips around the number: space, tab,
newline, carriage return, vertical tab, form feed. -/
def isSpaceChar (c : Char) : Bool :=
  c == ' ' || c == '\t' || c == '\n' || c == '\r' || c == '\x0b' || c == '\x0c'

/-- Drops the leading whitespace of a character list. -/
def dropLeadingSpaces : List Char → List Char
  | [] => []
  | c :: cs => if isSpaceChar c then dropLeadingSpaces cs else c :: cs

/-- Drops leading and trailing whitespace, as int4in does around the
number it reads. -/
def trimSpaces (cs : List Char) : List Char :=
  (dropLeadingSpaces (dropLeadingSpaces cs).reverse).reverse

/-- PostgreSQL int4in, the cast of a text statement parameter to the
integer `id` column: optional surrounding whitespace, an optional sign,
at least one decimal digit, and the resulting value must lie in the
32-bit integer range (otherwise error 22003).  The handlers bind
`req.params.id` unparsed (lines 91, 119-120, 143), so an id string the
cast rejects makes the statement itself fail. -/
def parseId (s : String) : Option Int :=
  let core : Option Int :=
    match trimSpaces s.data with
    | [] => none
    | '-' :: cs => if cs = [] then none else (digitsToNat 0 cs).map (fun n => -(n : Int))
    | '+' :: cs => if cs = [] then none else (digitsToNat 0 cs).map (fun n => (n : Int))
    | cs => (digitsToNat 0 cs).map (fun n => (n : Int))
  match core with
  | none => none
  | some v => if -2147483648 ≤ v ∧ v ≤ 2147483647 then some v else none

/-- ORDER BY created_at DESC: an earlier element has the later or equal
creation time. -/
def createdDesc (a b : User) : Prop := b.created_at ≤ a.created_at

instance : DecidableRel createdDesc :=
  fun a b => inferInstanceAs (Decidable (b.created_at ≤ a.created_at))

instance : IsTotal User createdDesc :=
  ⟨fun a b => Or.symm (Nat.le_total a.created_at b.created_at)⟩

instance : IsTrans User createdDesc :=
  ⟨fun _ _ _ hab hbc => Nat.le_trans hbc hab⟩

/-- `SELECT * FROM users ORDER BY created_at DESC` (lines 52 and 96). -/
def selectAllDesc (db : DB) : List User :=
  List.insertionSort createdDesc db.rows

/-- `SELECT * FROM users WHERE id = $1` (line 91): zero or one row. -/
def selectById (db : DB) (n : Int) : Option User :=
  db.rows.find? (fun u => u.id == n)

/-- `INSERT INTO users (name, email, age) VALUES ($1, $2, $3)` (lines
71-74): raises 23505 when the UNIQUE email column already holds the value,
otherwise appends a row with the next SERIAL id and both timestamps
defaulted to the current time. -/
def insertUser (db : DB) (now : Nat) (name email : String) (age : Option Int) :
    Except QueryError (DB × User) :=
  if db.rows.any (fun u => u.email == email) then
    Except.error QueryError.uniqueViolation
  else
    let u := User.mk db.nextId name email age now now
    Except.ok (DB.mk (db.rows ++ [u]) (db.nextId + 1), u)

/-- `UPDATE users SET name = $1, email = $2, age = $3, updated_at =
CURRENT_TIMESTAMP WHERE id = $4 RETURNING *` (lines 118-121): no matching
row yields zero returned rows; a new email colliding with a different row
raises 23505; otherwise the matched row is replaced (created_at kept,
updated_at refreshed) and returned. -/
def updateById (db : DB) (now : Nat) (n : Int) (name email : String) (age : Option Int) :
    Except QueryError (Option (DB × User)) :=
  match db.rows.find? (fun u => u.id == n) with
  | none => Except.ok none
  | some u =>
      if db.rows.any (fun v => v.email == email && !(v.id == n)) then
        Except.error QueryError.uniqueViolation
      else
        Except.ok (some
          (DB.mk (db.rows.map (fun v =>
              if v.id = n then User.mk v.id name email age v.created_at now else v))
            db.nextId,
           User.mk u.id name email age u.created_at now))

/-- `DELETE FROM users WHERE id = $1 RETURNING *` (line 143): removes the
matching rows and returns the first removed row, or nothing. -/
def deleteById (db : DB) (n : Int) : Option (DB × User) :=
  match db.rows.filter (fun u => u.id == n) with
  | [] => none
  | u :: _ =>
      some (DB.mk (db.rows.filter (fun u => !(u.id == n))) db.nextId, u)

def msgRequired : String := "Nombre y correo electrónico son requeridos"
def msgEmailExists : String := "El correo electrónico ya existe"
def msgCreateError : String := "Error al crear usuario"
def msgUserNotFound : String := "Usuario no encontrado"
def msgFetchError : String := "Error al obtener usuario"
def msgUpdateError : String := "Error al actualizar usuario"
def msgDeleteError : String := "Error al eliminar usuario"
def msgDeleted : String := "Usuario eliminado correctamente"

/-- GET / (lines 50-59), success path: render the full list with
`editingUser: null` supplied explicitly. -/
def getIndex (db : DB) : Response :=
  Response.renderPage 200 (RenderInput.mk (selectAllDesc db) (some none) none)

/-- The catch block of POST /users (lines 77-83): 23505 renders the index
with an empty user list and a duplicate-email message at 400; any other
error renders the same empty list at 500.  Neither render supplies an
editingUser field. -/
def createCatch : QueryError → Response
  | QueryError.uniqueViolation =>
      Response.renderPage 400 (RenderInput.mk [] none (some msgEmailExists))
  | QueryError.castError =>
      Response.renderPage 500 (RenderInput.mk [] none (some msgCreateError))

/-- POST /users (lines 62-84): validate `!name || !email`, insert with
`age || null`, redirect to / on success (Express default status 302). -/
def postUsers (now : Nat) (body : ReqBody) (db : DB) : Response × DB :=
  if body.name = "" ∨ body.email = "" then
    (Response.jsonError 400 msgRequired, db)
  else
    match insertUser db now body.name body.email (jsOrNull body.age) with
    | Except.ok (db2, _) => (Response.redirectTo 302 "/", db2)
    | Except.error e => (createCatch e, db)

/-- GET /users/:id (lines 87-105): a failing id cast is caught as a 500;
no row is a 404; otherwise render the list with the row as editingUser. -/
def getUserById (idStr : String) (db : DB) : Response :=
  match parseId idStr with
  | none => Response.jsonError 500 msgFetchError
  | some n =>
      match selectById db n with
      | none => Response.jsonError 404 msgUserNotFound
      | some u =>
          Response.renderPage 200
            (RenderInput.mk (selectAllDesc db) (some (some u)) none)

/-- PUT /users/:id (lines 108-136): validate, then run the UPDATE; a
failing id cast is caught as 500, zero rows as 404, 23505 as 400. -/
def putUsers (now : Nat) (idStr : String) (body : ReqBody) (db : DB) : Response × DB :=
  if body.name = "" ∨ body.email = "" then
    (Response.jsonError 400 msgRequired, db)
  else
    match parseId idStr with
    | none => (Response.jsonError 500 msgUpdateError, db)
    | some n =>
        match updateById db now n body.name body.email (jsOrNull body.age) with
        | Except.ok none => (Response.jsonError 404 msgUserNotFound, db)
        | Except.ok (some (db2, u)) => (Response.jsonUser 200 u, db2)
        | Except.error QueryError.uniqueViolation =>
            (Response.jsonError 400 msgEmailExists, db)
        | Except.error QueryError.castError =>
            (Response.jsonError 500 msgUpdateError, db)

/-- DELETE /users/:id (lines 139-155): a failing id cast is caught as 500,
zero returned rows as 404. -/
def deleteUsers (idStr : String) (db : DB) : Response × DB :=
  match parseId idStr with
  | none => (Response.jsonError 500 msgDeleteError, db)
  | some n =>
      match deleteById db n with
      | none => (Response.jsonError 404 msgUserNotFound, db)
      | some (db2, _) => (Response.jsonMessage 200 msgDeleted, db2)

/-- GET /health (lines 158-160). -/
def getHealth : Response := Response.jsonOk 200

/-- One incoming HTTP request against the service. -/
inductive Request where
  | list
  | create (body : ReqBody)
  | fetchOne (idStr : String)
  | update (idStr : String) (body : ReqBody)
  | remove (idStr : String)
  | health
deriving DecidableEq

/-- Dispatch of one request at logical time `now`: the response and the
store state afterwards (read-only endpoints leave the store unchanged). -/
def applyRequest (now : Nat) (r : Request) (db : DB) : Response × DB :=
  match r with
  | Request.list => (getIndex db, db)
  | Request.create body => postUsers now body db
  | Request.fetchOne idStr => (getUserById idStr db, db)
  | Request.update idStr body => putUsers now idStr body db
  | Request.remove idStr => deleteUsers idStr db
  | Request.health => (getHealth, db)

/-- Store well-formedness maintained by PostgreSQL: ids are pairwise
distinct (PRIMARY KEY), emails are pairwise distinct (UNIQUE), and every
id was generated below the SERIAL counter. -/
def DB.Wf (db : DB) : Prop :=
  (db.rows.map User.id).Nodup ∧ (db.rows.map User.email).Nodup ∧
    ∀ u ∈ db.rows, u.id < db.nextId

/-- Timestamp invariant at logical time `t`: every row was created no
later than it was updated, and not in the future. -/
def TimeInv (t : Nat) (db : DB) : Prop :=
  ∀ u ∈ db.rows, u.created_at ≤ u.updated_at ∧ u.updated_at ≤ t

/-- Store states reachable from the initialized table by serving requests
at nondecreasing logical times. -/
inductive Reachable : Nat → DB → Prop where
  | init : Reachable 0 dbInit
  | step {t : Nat} {db : DB} (t2 : Nat) (r : Request) :
      Reachable t db → t ≤ t2 → Reachable t2 (applyRequest t2 r db).2

/-- Steps a shutdown sequence may perform.  `stopAccepting` stands for
closing the HTTP listener to new connections (`server.close()`), which
src/server.js never does. -/
inductive ShutdownAction where
  | logClosing
  | stopAccepting
  | closePool
  | exitProcess
deriving DecidableEq

/-- The SIGTERM handler (src/server.js lines 185-189): log, `pool.end()`,
`process.exit(0)`, in that order and nothing else. -/
def sigtermActions : List ShutdownAction :=
  [ShutdownAction.logClosing, ShutdownAction.closePool, ShutdownAction.exitProcess]

/-- A find? by id over rows none of which carry the id yields nothing. -/
theorem find?_id_none {l : List User} {n : Int} (h : ∀ u ∈ l, u.id ≠ n) :
    l.find? (fun u => u.id == n) = none := by
  rw [List.find?_eq_none]
  intro u hu
  simp [h u hu]

/-- A list whose image under `f` has no duplicates keeps exactly one
element at each attained value of `f`. -/
theorem length_filter_eq_one {α β : Type} [DecidableEq β] (f : α → β) :
    ∀ (l : List α) (b : β), (l.map f).Nodup → b ∈ l.map f →
      (l.filter (fun x => f x == b)).length = 1 := by
  intro l
  induction l with
  | nil => intro b _ hmem; simp at hmem
  | cons x tl ih =>
      intro b hnd hmem
      simp only [List.map_cons, List.nodup_cons] at hnd
      rcases List.mem_cons.1 hmem with hb | hb
      · rw [List.filter_cons, if_pos (by simp [hb])]
        have hnil : tl.filter (fun y => f y == b) = [] := by
          rw [List.filter_eq_nil_iff]
          intro a ha
          simp only [beq_iff_eq]
          intro hfa
          exact hnd.1 (hb ▸ hfa ▸ List.mem_map_of_mem f ha)
        simp [hnil]
      · have hne : ¬(f x == b) = true := by
          simp only [beq_iff_eq]
          intro hfx
          exact hnd.1 (hfx ▸ hb)
        rw [List.filter_cons, if_neg hne]
        exact ih b hnd.2 hb

/-- Removing the (unique) element satisfying `p` shortens the list by one. -/
theorem length_filter_not_of_one {α : Type} {l : List α} {p : α → Bool}
    (h : (l.filter p).length = 1) :
    (l.filter (fun x => !(p x))).length + 1 = l.length := by
  have := List.length_eq_length_filter_add (l := l) p
  omega

/-- The id of a row after the UPDATE row transformer is the row's own id. -/
theorem updated_id_eq (n : Int) (name email : String) (age : Option Int) (now : Nat)
    (v : User) :
    (if v.id = n then User.mk v.id name email age v.created_at now else v).id = v.id := by
  by_cases h : v.id = n <;> simp [h]

/-- The email of a row after the UPDATE row transformer. -/
theorem updated_email_eq (n : Int) (name email : String) (age : Option Int) (now : Nat)
    (v : User) :
    (if v.id = n then User.mk v.id name email age v.created_at now else v).email
      = if v.id = n then email else v.email := by
  by_cases h : v.id = n <;> simp [h]

/-- Setting the email of the one row with id `n` to a value no other row
carries keeps the emails pairwise distinct. -/
theorem nodup_map_ite_email {n : Int} {email : String} :
    ∀ (l : List User), (l.map User.id).Nodup → (l.map User.email).Nodup →
      (∀ v ∈ l, v.email = email → v.id = n) →
      (l.map (fun v => if v.id = n then email else v.email)).Nodup := by
  intro l
  induction l with
  | nil => intro _ _ _; simp
  | cons v tl ih =>
      intro hid hem hcf
      simp only [List.map_cons, List.nodup_cons] at hid hem ⊢
      refine ⟨?_, ih hid.2 hem.2 (fun w hw => hcf w (List.mem_cons_of_mem v hw))⟩
      intro hmem
      rw [List.mem_map] at hmem
      obtain ⟨w, hw, hgw⟩ := hmem
      by_cases hv : v.id = n
      · rw [if_pos hv] at hgw
        by_cases hwn : w.id = n
        · rcases hid with ⟨hid1, _⟩
          exact hid1 (List.mem_map.2 ⟨w, hw, by rw [hwn, hv]⟩)
        · rw [if_neg hwn] at hgw
          exact hwn (hcf w (List.mem_cons_of_mem v hw) hgw)
      · rw [if_neg hv] at hgw
        by_cases hwn : w.id = n
        · rw [if_pos hwn] at hgw
          exact hv (hcf v (List.mem_cons_self v tl) hgw.symm)
        · rw [if_neg hwn] at hgw
          exact hem.1 (List.mem_map.2 ⟨w, hw, hgw⟩)

/-- A successful INSERT preserves store well-formedness. -/
theorem wf_insertUser {db : DB} {now : Nat} {name email : String} {age : Option Int}
    {db2 : DB} {u : User}
    (hwf : db.Wf) (h : insertUser db now name email age = Except.ok (db2, u)) :
    db2.Wf := by
  unfold insertUser at h
  split at h
  · exact absurd h (by simp)
  · rename_i hany
    simp only [Except.ok.injEq, Prod.mk.injEq] at h
    obtain ⟨hdb, -⟩ := h
    subst hdb
    obtain ⟨h1, h2, h3⟩ := hwf
    have hfresh : ∀ v ∈ db.rows, v.email ≠ email := by
      intro v hv he
      exact hany (List.any_eq_true.2 ⟨v, hv, by simp [he]⟩)
    refine ⟨?_, ?_, ?_⟩
    · show ((db.rows ++ [User.mk db.nextId name email age now now]).map User.id).Nodup
      rw [List.map_append, List.nodup_append]
      refine ⟨h1, by simp, ?_⟩
      intro a ha hb
      obtain ⟨v, hv, hva⟩ := List.mem_map.1 ha
      simp only [List.map_cons, List.map_nil, List.mem_singleton] at hb
      have := h3 v hv
      omega
    · show ((db.rows ++ [User.mk db.nextId name email age now now]).map User.email).Nodup
      rw [List.map_append, List.nodup_append]
      refine ⟨h2, by simp, ?_⟩
      intro a ha hb
      obtain ⟨v, hv, hva⟩ := List.mem_map.1 ha
      simp only [List.map_cons, List.map_nil, List.mem_singleton] at hb
      exact hfresh v hv (by rw [hva, hb])
    · intro v hv
      show v.id < db.nextId + 1
      rcases List.mem_append.1 hv with hv | hv
      · have := h3 v hv
        omega
      · simp only [List.mem_singleton] at hv
        rw [hv]
        exact lt_add_one db.nextId

/-- A successful UPDATE preserves store well-formedness. -/
theorem wf_updateById {db : DB} {now : Nat} {n : Int} {name email : String}
    {age : Option Int} {db2 : DB} {u : User}
    (hwf : db.Wf) (h : updateById db now n name email age = Except.ok (some (db2, u))) :
    db2.Wf := by
  unfold updateById at h
  split at h
  · exact absurd h (by simp)
  · rename_i w hfind
    split at h
    · exact absurd h (by simp)
    · rename_i hany
      simp only [Except.ok.injEq, Option.some.injEq, Prod.mk.injEq] at h
      obtain ⟨hdb, -⟩ := h
      subst hdb
      obtain ⟨h1, h2, h3⟩ := hwf
      have hcf : ∀ v ∈ db.rows, v.email = email → v.id = n := by
        intro v hv he
        by_contra hne
        exact hany (List.any_eq_true.2 ⟨v, hv, by simp [he, hne]⟩)
      have hids : (db.rows.map (fun v =>
          if v.id = n then User.mk v.id name email age v.created_at now else v)).map User.id
          = db.rows.map User.id := by
        rw [List.map_map]
        exact List.map_congr_left (fun v _ => updated_id_eq n name email age now v)
      refine ⟨?_, ?_, ?_⟩
      · show ((db.rows.map (fun v =>
            if v.id = n then User.mk v.id name email age v.created_at now else v)).map
            User.id).Nodup
        rw [hids]
        exact h1
      · show ((db.rows.map (fun v =>
            if v.id = n then User.mk v.id name email age v.created_at now else v)).map
            User.email).Nodup
        rw [List.map_map]
        have hcomp : (User.email ∘ fun v =>
            if v.id = n then User.mk v.id name email age v.created_at now else v)
            = fun v => if v.id = n then email else v.email := by
          funext v
          by_cases hv : v.id = n <;> simp [Function.comp, hv]
        rw [hcomp]
        exact nodup_map_ite_email db.rows h1 h2 hcf
      · intro v hv
        obtain ⟨w2, hw2, hw2v⟩ := List.mem_map.1 hv
        show v.id < db.nextId
        rw [← hw2v, updated_id_eq]
        exact h3 w2 hw2

/-- A successful DELETE preserves store well-formedness. -/
theorem wf_deleteById {db : DB} {n : Int} {db2 : DB} {u : User}
    (hwf : db.Wf) (h : deleteById db n = some (db2, u)) : db2.Wf := by
  unfold deleteById at h
  split at h
  · exact absurd h (by simp)
  · rename_i w ws hflt
    simp only [Option.some.injEq, Prod.mk.injEq] at h
    obtain ⟨hdb, -⟩ := h
    subst hdb
    obtain ⟨h1, h2, h3⟩ := hwf
    have hsub : (db.rows.filter (fun v => !(v.id == n))).Sublist db.rows :=
      List.filter_sublist _
    exact ⟨List.Nodup.sublist (hsub.map User.id) h1,
      List.Nodup.sublist (hsub.map User.email) h2,
      fun v hv => h3 v (List.mem_filter.1 hv).1⟩

/-- Serving any request preserves store well-formedness. -/
theorem wf_applyRequest (t : Nat) (r : Request) (db : DB) (hwf : db.Wf) :
    ((applyRequest t r db).2).Wf := by
  cases r with
  | list => exact hwf
  | health => exact hwf
  | fetchOne idStr => exact hwf
  | create body =>
      show ((postUsers t body db).2).Wf
      unfold postUsers
      split
      · exact hwf
      · split
        · rename_i db2 u hins
          exact wf_insertUser hwf hins
        · exact hwf
  | update idStr body =>
      show ((putUsers t idStr body db).2).Wf
      unfold putUsers
      split
      · exact hwf
      · split
        · exact hwf
        · split
          · exact hwf
          · rename_i db2 u hupd
            exact wf_updateById hwf hupd
          · exact hwf
          · exact hwf
  | remove idStr =>
      show ((deleteUsers idStr db).2).Wf
      unfold deleteUsers
      split
      · exact hwf
      · split
        · exact hwf
        · rename_i db2 u hdel
          exact wf_deleteById hwf hdel

/-- The timestamp invariant is stable under advancing the clock. -/
theorem timeInv_mono {t t2 : Nat} {db : DB} (h : TimeInv t db) (hle : t ≤ t2) :
    TimeInv t2 db :=
  fun u hu => ⟨(h u hu).1, Nat.le_trans (h u hu).2 hle⟩

/-- A successful INSERT at the current time preserves the timestamp
invariant: the new row has both timestamps equal to now. -/
theorem timeInv_insertUser {db : DB} {now : Nat} {name email : String}
    {age : Option Int} {db2 : DB} {u : User}
    (h : TimeInv now db) (heq : insertUser db now name email age = Except.ok (db2, u)) :
    TimeInv now db2 := by
  unfold insertUser at heq
  split at heq
  · exact absurd heq (by simp)
  · simp only [Except.ok.injEq, Prod.mk.injEq] at heq
    obtain ⟨hdb, -⟩ := heq
    subst hdb
    intro v hv
    rcases List.mem_append.1 hv with hv | hv
    · exact h v hv
    · simp only [List.mem_singleton] at hv
      rw [hv]
      exact ⟨Nat.le_refl now, Nat.le_refl now⟩

/-- A successful UPDATE at the current time preserves the timestamp
invariant: the touched row keeps its creation time and is stamped now. -/
theorem timeInv_updateById {db : DB} {now : Nat} {n : Int} {name email : String}
    {age : Option Int} {db2 : DB} {u : User}
    (h : TimeInv now db)
    (heq : updateById db now n name email age = Except.ok (some (db2, u))) :
    TimeInv now db2 := by
  unfold updateById at heq
  split at heq
  · exact absurd heq (by simp)
  · split at heq
    · exact absurd heq (by simp)
    · simp only [Except.ok.injEq, Option.some.injEq, Prod.mk.injEq] at heq
      obtain ⟨hdb, -⟩ := heq
      subst hdb
      intro v hv
      obtain ⟨w, hw, hwv⟩ := List.mem_map.1 hv
      rw [← hwv]
      by_cases hwn : w.id = n
      · rw [if_pos hwn]
        exact ⟨Nat.le_trans (h w hw).1 (h w hw).2, Nat.le_refl now⟩
      · rw [if_neg hwn]
        exact h w hw

/-- A DELETE preserves the timestamp invariant: the rows kept are rows of
the previous state. -/
theorem timeInv_deleteById {t : Nat} {db : DB} {n : Int} {db2 : DB} {u : User}
    (h : TimeInv t db) (heq : deleteById db n = some (db2, u)) : TimeInv t db2 := by
  unfold deleteById at heq
  split at heq
  · exact absurd heq (by simp)
  · simp only [Option.some.injEq, Prod.mk.injEq] at heq
    obtain ⟨hdb, -⟩ := heq
    subst hdb
    intro v hv
    exact h v (List.mem_filter.1 hv).1

/-- Serving any request at a later time preserves the timestamp invariant. -/
theorem timeInv_applyRequest (t t2 : Nat) (r : Request) (db : DB)
    (h : TimeInv t db) (hle : t ≤ t2) : TimeInv t2 ((applyRequest t2 r db).2) := by
  have h2 : TimeInv t2 db := timeInv_mono h hle
  cases r with
  | list => exact h2
  | health => exact h2
  | fetchOne idStr => exact h2
  | create body =>
      show TimeInv t2 ((postUsers t2 body db).2)
      unfold postUsers
      split
      · exact h2
      · split
        · rename_i db2 u hins
          exact timeInv_insertUser h2 hins
        · exact h2
  | update idStr body =>
      show TimeInv t2 ((putUsers t2 idStr body db).2)
      unfold putUsers
      split
      · exact h2
      · split
        · exact h2
        · split
          · exact h2
          · rename_i db2 u hupd
            exact timeInv_updateById h2 hupd
          · exact h2
          · exact h2
  | remove idStr =>
      show TimeInv t2 ((deleteUsers idStr db).2)
      unfold deleteUsers
      split
      · exact h2
      · split
        · exact h2
        · rename_i db2 u hdel
          exact timeInv_deleteById h2 hdel

/-- Every reachable store state satisfies the timestamp invariant. -/
theorem reachable_timeInv {t : Nat} {db : DB} (h : Reachable t db) : TimeInv t db := by
  induction h with
  | init =>
      intro u hu
      simp [dbInit] at hu
  | step t2 r hr hle ih => exact timeInv_applyRequest _ _ r _ ih hle

/-- A successful create appends exactly one row, carrying the SERIAL id,
the given fields with age coerced by `age || null`, and both timestamps
equal to the current time, and redirects to the index. -/
theorem postUsers_success (now : Nat) (body : ReqBody) (db : DB)
    (hn : body.name ≠ "") (he : body.email ≠ "")
    (hfresh : ∀ u ∈ db.rows, u.email ≠ body.email) :
    postUsers now body db
      = (Response.redirectTo 302 "/",
         DB.mk (db.rows ++
             [User.mk db.nextId body.name body.email (jsOrNull body.age) now now])
           (db.nextId + 1)) := by
  unfold postUsers
  rw [if_neg (not_or.2 ⟨hn, he⟩)]
  unfold insertUser
  rw [if_neg ?hc]
  case hc =>
    rw [List.any_eq_true]
    rintro ⟨v, hv, hbe⟩
    exact hfresh v hv (by simpa using hbe)

/-- A create whose email is already present reaches the 23505 catch branch
and leaves the store untouched. -/
theorem postUsers_conflict (now : Nat) (body : ReqBody) (db : DB)
    (hn : body.name ≠ "") (he : body.email ≠ "")
    (hdup : body.email ∈ db.rows.map User.email) :
    postUsers now body db = (createCatch QueryError.uniqueViolation, db) := by
  unfold postUsers
  rw [if_neg (not_or.2 ⟨hn, he⟩)]
  unfold insertUser
  obtain ⟨v, hv, hve⟩ := List.mem_map.1 hdup
  rw [if_pos (List.any_eq_true.2 ⟨v, hv, by simp [hve]⟩)]

/-- find? over an append whose left part yields nothing. -/
theorem find?_append_right {l1 l2 : List User} {p : User → Bool}
    (h : l1.find? p = none) : (l1 ++ l2).find? p = l2.find? p := by
  rw [List.find?_append, h, Option.none_or]

/-- C1 (amended): creating a record with non-empty name and email, a fresh
email, and an age that is absent or a nonzero integer, then fetching by
the new SERIAL id, yields a record whose name, email and age match the
input and whose created_at equals updated_at; the fetch endpoint shows it
as the editing record. -/
theorem C1_create_then_fetch (db : DB) (now : Nat) (idStr : String)
    (name email : String) (age : Option Int)
    (hn : name ≠ "") (he : email ≠ "") (ha : age ≠ some 0)
    (hfresh : ∀ u ∈ db.rows, u.email ≠ email)
    (hid : ∀ u ∈ db.rows, u.id ≠ db.nextId)
    (hpid : parseId idStr = some db.nextId) :
    selectById (postUsers now (ReqBody.mk name email age) db).2 db.nextId
        = some (User.mk db.nextId name email age now now)
    ∧ (User.mk db.nextId name email age now now).created_at
        = (User.mk db.nextId name email age now now).updated_at
    ∧ getUserById idStr (postUsers now (ReqBody.mk name email age) db).2
        = Response.renderPage 200 (RenderInput.mk
            (selectAllDesc (postUsers now (ReqBody.mk name email age) db).2)
            (some (some (User.mk db.nextId name email age now now))) none) := by
  have hpost := postUsers_success now (ReqBody.mk name email age) db hn he hfresh
  have hage2 : jsOrNull age = age := by
    cases age with
    | none => rfl
    | some a =>
        show (if a = 0 then none else some a : Option Int) = some a
        rw [if_neg (fun h0 => ha (by rw [h0]))]
  have hsel : selectById (postUsers now (ReqBody.mk name email age) db).2 db.nextId
      = some (User.mk db.nextId name email age now now) := by
    rw [hpost]
    show selectById (DB.mk (db.rows ++
        [User.mk db.nextId name email (jsOrNull age) now now]) (db.nextId + 1))
        db.nextId = _
    unfold selectById
    rw [show (DB.mk (db.rows ++
        [User.mk db.nextId name email (jsOrNull age) now now]) (db.nextId + 1)).rows
        = db.rows ++ [User.mk db.nextId name email (jsOrNull age) now now] from rfl]
    rw [find?_append_right (find?_id_none hid)]
    simp [hage2]
  refine ⟨hsel, rfl, ?_⟩
  unfold getUserById
  simp only [hpid, hsel]

/-- C1 counterexample: the claim as stated fails for the integer age 0,
which `age || null` coerces to null before the INSERT, so the fetched
record's age does not match the input. -/
theorem C1_counterexample :
    (postUsers 5 (ReqBody.mk "Ada" "ada@example.com" (some 0)) dbInit).2.rows
      = [User.mk 1 "Ada" "ada@example.com" none 5 5]
    ∧ selectById (postUsers 5 (ReqBody.mk "Ada" "ada@example.com" (some 0)) dbInit).2 1
      = some (User.mk 1 "Ada" "ada@example.com" none 5 5)
    ∧ (User.mk 1 "Ada" "ada@example.com" none 5 5).age ≠ some 0 := by
  decide

/-- C1 witness at a concrete input. -/
theorem C1_create_then_fetch_witness :
    selectById (postUsers 5 (ReqBody.mk "Ada" "ada@example.com" (some 30)) dbInit).2
        dbInit.nextId
      = some (User.mk dbInit.nextId "Ada" "ada@example.com" (some 30) 5 5)
    ∧ (User.mk dbInit.nextId "Ada" "ada@example.com" (some 30) 5 5).created_at
        = (User.mk dbInit.nextId "Ada" "ada@example.com" (some 30) 5 5).updated_at
    ∧ getUserById "1" (postUsers 5 (ReqBody.mk "Ada" "ada@example.com" (some 30)) dbInit).2
        = Response.renderPage 200 (RenderInput.mk
            (selectAllDesc (postUsers 5 (ReqBody.mk "Ada" "ada@example.com" (some 30)) dbInit).2)
            (some (some (User.mk dbInit.nextId "Ada" "ada@example.com" (some 30) 5 5))) none) :=
  C1_create_then_fetch dbInit 5 "1" "Ada" "ada@example.com" (some 30)
    (by decide) (by decide) (by decide) (by simp [dbInit]) (by simp [dbInit]) (by decide)

/-- C2: creating a second record with an email already present fails with
the 400 duplicate-email conflict page and leaves the store untouched, the
store afterwards holds exactly one record with that email, and serving any
request preserves email (and id) uniqueness. -/
theorem C2_duplicate_email (db : DB) (now : Nat) (body : ReqBody)
    (hwf : db.Wf) (hdup : body.email ∈ db.rows.map User.email)
    (hn : body.name ≠ "") (he : body.email ≠ "") :
    postUsers now body db
      = (Response.renderPage 400 (RenderInput.mk [] none (some msgEmailExists)), db)
    ∧ ((postUsers now body db).2.rows.filter (fun u => u.email == body.email)).length = 1
    ∧ ∀ (t : Nat) (r : Request) (d : DB), d.Wf → ((applyRequest t r d).2).Wf := by
  have hpc := postUsers_conflict now body db hn he hdup
  refine ⟨hpc, ?_, fun t r d hw => wf_applyRequest t r d hw⟩
  rw [hpc]
  exact length_filter_eq_one User.email db.rows body.email hwf.2.1 hdup

/-- C2 witness at a concrete store with one matching record. -/
theorem C2_duplicate_email_witness :
    postUsers 6 (ReqBody.mk "Eve" "ada@example.com" (some 7))
        (DB.mk [User.mk 1 "Ada" "ada@example.com" none 5 5] 2)
      = (Response.renderPage 400 (RenderInput.mk [] none (some msgEmailExists)),
         DB.mk [User.mk 1 "Ada" "ada@example.com" none 5 5] 2)
    ∧ ((postUsers 6 (ReqBody.mk "Eve" "ada@example.com" (some 7))
        (DB.mk [User.mk 1 "Ada" "ada@example.com" none 5 5] 2)).2.rows.filter
          (fun u => u.email == "ada@example.com")).length = 1
    ∧ ∀ (t : Nat) (r : Request) (d : DB), d.Wf → ((applyRequest t r d).2).Wf :=
  C2_duplicate_email (DB.mk [User.mk 1 "Ada" "ada@example.com" none 5 5] 2) 6
    (ReqBody.mk "Eve" "ada@example.com" (some 7))
    ⟨by decide, by decide, by
      intro u hu
      simp only [List.mem_singleton] at hu
      subst hu
      decide⟩
    (by decide) (by decide) (by decide)

/-- C3: updating an id that matches no record, with valid fields, yields
the 404 not-found response and leaves the store state identical. -/
theorem C3_update_missing_id (db : DB) (now : Nat) (idStr : String) (n : Int)
    (body : ReqBody) (hp : parseId idStr = some n) (habs : ∀ u ∈ db.rows, u.id ≠ n)
    (hn : body.name ≠ "") (he : body.email ≠ "") :
    putUsers now idStr body db = (Response.jsonError 404 msgUserNotFound, db) := by
  unfold putUsers
  rw [if_neg (not_or.2 ⟨hn, he⟩)]
  simp only [hp]
  unfold updateById
  simp only [find?_id_none habs]

/-- C3 witness: updating id 9 on the empty store. -/
theorem C3_update_missing_id_witness :
    putUsers 5 "9" (ReqBody.mk "Ada" "ada@example.com" none) dbInit
      = (Response.jsonError 404 msgUserNotFound, dbInit) :=
  C3_update_missing_id dbInit 5 "9" 9 (ReqBody.mk "Ada" "ada@example.com" none)
    (by decide) (by simp [dbInit]) (by decide) (by decide)

/-- C4: deleting an existing id succeeds, fetching that id afterwards
yields 404, and the rendered list is exactly one shorter. -/
theorem C4_delete_then_fetch (db : DB) (idStr : String) (n : Int) (u0 : User)
    (hp : parseId idStr = some n) (hu0 : u0 ∈ db.rows) (hid0 : u0.id = n)
    (hnd : (db.rows.map User.id).Nodup) :
    (deleteUsers idStr db).1 = Response.jsonMessage 200 msgDeleted
    ∧ getUserById idStr (deleteUsers idStr db).2 = Response.jsonError 404 msgUserNotFound
    ∧ (selectAllDesc (deleteUsers idStr db).2).length + 1 = (selectAllDesc db).length := by
  have hmem : n ∈ db.rows.map User.id := List.mem_map.2 ⟨u0, hu0, hid0⟩
  have hlen1 : (db.rows.filter (fun u => u.id == n)).length = 1 :=
    length_filter_eq_one User.id db.rows n hnd hmem
  have hdel : deleteUsers idStr db
      = (Response.jsonMessage 200 msgDeleted,
         DB.mk (db.rows.filter (fun u => !(u.id == n))) db.nextId) := by
    unfold deleteUsers
    simp only [hp]
    unfold deleteById
    cases hflt : db.rows.filter (fun u => u.id == n) with
    | nil =>
        rw [hflt] at hlen1
        simp at hlen1
    | cons w ws => rfl
  refine ⟨by rw [hdel], ?_, ?_⟩
  · rw [hdel]
    show getUserById idStr (DB.mk (db.rows.filter (fun u => !(u.id == n))) db.nextId) = _
    unfold getUserById
    simp only [hp]
    unfold selectById
    have hnone : (db.rows.filter (fun u => !(u.id == n))).find? (fun u => u.id == n)
        = none := by
      rw [List.find?_eq_none]
      intro x hx
      have hx2 := (List.mem_filter.1 hx).2
      simp only [Bool.not_eq_eq_eq_not, Bool.not_true] at hx2
      simp [hx2]
    simp only [hnone]
  · rw [hdel]
    show (selectAllDesc (DB.mk (db.rows.filter (fun u => !(u.id == n))) db.nextId)).length + 1
        = (selectAllDesc db).length
    unfold selectAllDesc
    rw [(List.perm_insertionSort createdDesc _).length_eq,
      (List.perm_insertionSort createdDesc _).length_eq]
    exact length_filter_not_of_one hlen1

/-- C4 witness: deleting the only record of a one-record store. -/
theorem C4_delete_then_fetch_witness :
    (deleteUsers "1" (DB.mk [User.mk 1 "Ada" "ada@example.com" none 5 5] 2)).1
      = Response.jsonMessage 200 msgDeleted
    ∧ getUserById "1" (deleteUsers "1" (DB.mk [User.mk 1 "Ada" "ada@example.com" none 5 5] 2)).2
      = Response.jsonError 404 msgUserNotFound
    ∧ (selectAllDesc (deleteUsers "1"
          (DB.mk [User.mk 1 "Ada" "ada@example.com" none 5 5] 2)).2).length + 1
      = (selectAllDesc (DB.mk [User.mk 1 "Ada" "ada@example.com" none 5 5] 2)).length :=
  C4_delete_then_fetch (DB.mk [User.mk 1 "Ada" "ada@example.com" none 5 5] 2) "1" 1
    (User.mk 1 "Ada" "ada@example.com" none 5 5)
    (by decide) (by decide) (by decide) (by decide)

/-- C5 (amended): both handlers store `age || null`: an absent age and the
falsy integer 0 are stored as null, every other integer as itself.  The
create handler appends the row with that coerced age; a successful update
returns the record with that coerced age. -/
theorem C5_age_coercion :
    (∀ age : Option Int, jsOrNull age = if age = some 0 then none else age)
    ∧ (∀ (now : Nat) (db : DB) (body : ReqBody),
        body.name ≠ "" → body.email ≠ "" → (∀ u ∈ db.rows, u.email ≠ body.email) →
        (postUsers now body db).2.rows
          = db.rows ++ [User.mk db.nextId body.name body.email (jsOrNull body.age) now now])
    ∧ (∀ (now : Nat) (idStr : String) (db db2 : DB) (body : ReqBody) (u : User),
        putUsers now idStr body db = (Response.jsonUser 200 u, db2) →
        u.age = jsOrNull body.age) := by
  refine ⟨?_, ?_, ?_⟩
  · intro age
    cases age with
    | none => rfl
    | some a =>
        by_cases h0 : a = 0
        · subst h0
          rfl
        · show (if a = 0 then none else some a : Option Int) = _
          rw [if_neg h0, if_neg (by simp [h0])]
  · intro now db body hn he hfresh
    rw [postUsers_success now body db hn he hfresh]
  · intro now idStr db db2 body u h
    unfold putUsers at h
    split at h
    · exact absurd h (by simp)
    · split at h
      · exact absurd h (by simp)
      · rename_i n hpn
        split at h
        · exact absurd h (by simp)
        · rename_i db3 u3 hupd
          simp only [Prod.mk.injEq, Response.jsonUser.injEq, true_and] at h
          obtain ⟨hu, -⟩ := h
          subst hu
          unfold updateById at hupd
          split at hupd
          · exact absurd hupd (by simp)
          · split at hupd
            · exact absurd hupd (by simp)
            · simp only [Except.ok.injEq, Option.some.injEq, Prod.mk.injEq] at hupd
              obtain ⟨-, hu3⟩ := hupd
              rw [← hu3]
        · exact absurd h (by simp)
        · exact absurd h (by simp)

/-- C5 counterexample: the claim as stated fails for the supplied integer
age 0 on the update path: the stored and returned age is null, not 0. -/
theorem C5_counterexample :
    (putUsers 7 "1" (ReqBody.mk "Bob" "bob@example.com" (some 0))
        (DB.mk [User.mk 1 "Ada" "ada@example.com" (some 30) 5 5] 2)).1
      = Response.jsonUser 200 (User.mk 1 "Bob" "bob@example.com" none 5 7)
    ∧ (User.mk 1 "Bob" "bob@example.com" none 5 7).age ≠ some 0 := by
  decide

/-- C5 witness at concrete inputs for all three parts. -/
theorem C5_age_coercion_witness :
    jsOrNull (some 0) = (if (some 0 : Option Int) = some 0 then none else some 0)
    ∧ (postUsers 5 (ReqBody.mk "Ada" "ada@example.com" (some 0)) dbInit).2.rows
        = dbInit.rows ++ [User.mk dbInit.nextId "Ada" "ada@example.com" (jsOrNull (some 0)) 5 5]
    ∧ (User.mk 1 "Bob" "bob@example.com" none 5 7).age = jsOrNull (some 0) :=
  ⟨C5_age_coercion.1 (some 0),
   C5_age_coercion.2.1 5 dbInit (ReqBody.mk "Ada" "ada@example.com" (some 0))
     (by decide) (by decide) (by simp [dbInit]),
   C5_age_coercion.2.2 7 "1" (DB.mk [User.mk 1 "Ada" "ada@example.com" (some 30) 5 5] 2)
     (DB.mk [User.mk 1 "Bob" "bob@example.com" none 5 7] 2)
     (ReqBody.mk "Bob" "bob@example.com" (some 0))
     (User.mk 1 "Bob" "bob@example.com" none 5 7) (by decide)⟩

/-- C6: the list endpoint renders exactly the stored records (each exactly
once, being a permutation of the table) ordered by created_at descending. -/
theorem C6_list_ordered (db : DB) :
    getIndex db
      = Response.renderPage 200 (RenderInput.mk (selectAllDesc db) (some none) none)
    ∧ (selectAllDesc db).Perm db.rows
    ∧ (selectAllDesc db).Sorted createdDesc :=
  ⟨rfl, List.perm_insertionSort createdDesc db.rows,
    List.sorted_insertionSort createdDesc db.rows⟩

/-- C7: every record of every reachable store state satisfies
created_at ≤ updated_at. -/
theorem C7_timestamps_ordered (t : Nat) (db : DB) (h : Reachable t db) :
    ∀ u ∈ db.rows, u.created_at ≤ u.updated_at :=
  fun u hu => (reachable_timeInv h u hu).1

/-- C7 witness: the state after one create at time 5. -/
theorem C7_timestamps_ordered_witness :
    (User.mk 1 "Ada" "ada@example.com" (some 30) 5 5).created_at
      ≤ (User.mk 1 "Ada" "ada@example.com" (some 30) 5 5).updated_at :=
  C7_timestamps_ordered 5
    ((applyRequest 5 (Request.create (ReqBody.mk "Ada" "ada@example.com" (some 30))) dbInit).2)
    (Reachable.step 5 (Request.create (ReqBody.mk "Ada" "ada@example.com" (some 30)))
      Reachable.init (Nat.zero_le 5))
    (User.mk 1 "Ada" "ada@example.com" (some 30) 5 5) (by decide)

/-- C8 counterexample: the SIGTERM handler has no step that stops
accepting new connections before the pool is closed; the claimed first
action does not occur in the shutdown sequence at all. -/
theorem C8_counterexample : ShutdownAction.stopAccepting ∉ sigtermActions := by
  decide

/-- C8 (amended): on SIGTERM the process closes the connection pool and
then exits, in that order and as the final action, but performs no
explicit stop-accepting-connections step before closing the pool. -/
theorem C8_shutdown_order :
    sigtermActions.indexOf ShutdownAction.closePool
        < sigtermActions.indexOf ShutdownAction.exitProcess
    ∧ ShutdownAction.stopAccepting ∉ sigtermActions
    ∧ sigtermActions.getLast? = some ShutdownAction.exitProcess := by
  decide

/-- C9 counterexample: the claim as stated fails at the id path value
consisting of a space and the digit 9 (reachable as /users/%209): it is
not a syntactically valid integer, yet int4in trims the whitespace, the
cast succeeds, and all three endpoints answer 404 on the empty store, not
the claimed 500.  Conversely the all-digit string of twenty nines is
syntactically an integer but exceeds the int4 range, so its cast fails and
the fetch answers 500. -/
theorem C9_counterexample :
    parseId " 9" = some 9
    ∧ getUserById " 9" dbInit = Response.jsonError 404 msgUserNotFound
    ∧ putUsers 5 " 9" (ReqBody.mk "Ada" "ada@example.com" none) dbInit
        = (Response.jsonError 404 msgUserNotFound, dbInit)
    ∧ deleteUsers " 9" dbInit = (Response.jsonError 404 msgUserNotFound, dbInit)
    ∧ parseId "99999999999999999999" = none
    ∧ getUserById "99999999999999999999" dbInit = Response.jsonError 500 msgFetchError := by
  decide

/-- C9 (amended): an id path value the store's integer cast rejects —
anything that is not optional whitespace, an optional sign and decimal
digits denoting a value within the 32-bit integer range — makes the bound
statement fail, so fetch-one, update (with valid fields) and delete all
answer 500, not 404, and leave the store unchanged; a value the cast
accepts (including a whitespace-padded integer) is looked up as usual. -/
theorem C9_malformed_id (db : DB) (now : Nat) (idStr : String) (body : ReqBody)
    (hp : parseId idStr = none) (hn : body.name ≠ "") (he : body.email ≠ "") :
    getUserById idStr db = Response.jsonError 500 msgFetchError
    ∧ putUsers now idStr body db = (Response.jsonError 500 msgUpdateError, db)
    ∧ deleteUsers idStr db = (Response.jsonError 500 msgDeleteError, db) := by
  refine ⟨?_, ?_, ?_⟩
  · unfold getUserById
    simp only [hp]
  · unfold putUsers
    rw [if_neg (not_or.2 ⟨hn, he⟩)]
    simp only [hp]
  · unfold deleteUsers
    simp only [hp]

/-- C9 witness: the non-numeric id string abc. -/
theorem C9_malformed_id_witness :
    getUserById "abc" dbInit = Response.jsonError 500 msgFetchError
    ∧ putUsers 5 "abc" (ReqBody.mk "Ada" "ada@example.com" none) dbInit
        = (Response.jsonError 500 msgUpdateError, dbInit)
    ∧ deleteUsers "abc" dbInit = (Response.jsonError 500 msgDeleteError, dbInit) :=
  C9_malformed_id dbInit 5 "abc" (ReqBody.mk "Ada" "ada@example.com" none)
    (by decide) (by decide) (by decide)

/-- C10: a failing create renders the error page with an empty record list
whatever the store holds, and with no editingUser field in the render
input, unlike the success-path list render, which supplies editingUser
(as null). -/
theorem C10_error_render_empty (db : DB) (now : Nat) (body : ReqBody)
    (hn : body.name ≠ "") (he : body.email ≠ "")
    (hdup : body.email ∈ db.rows.map User.email) :
    (postUsers now body db).1 = createCatch QueryError.uniqueViolation
    ∧ (∀ e : QueryError, ∃ st msg,
        createCatch e = Response.renderPage st (RenderInput.mk [] none (some msg)))
    ∧ getIndex db
        = Response.renderPage 200 (RenderInput.mk (selectAllDesc db) (some none) none) := by
  refine ⟨by rw [postUsers_conflict now body db hn he hdup], ?_, rfl⟩
  intro e
  cases e with
  | uniqueViolation => exact ⟨400, msgEmailExists, rfl⟩
  | castError => exact ⟨500, msgCreateError, rfl⟩

/-- C10 witness at a concrete duplicate-email create. -/
theorem C10_error_render_empty_witness :
    (postUsers 8 (ReqBody.mk "Zoe" "ada@example.com" none)
        (DB.mk [User.mk 1 "Ada" "ada@example.com" none 5 5] 2)).1
      = createCatch QueryError.uniqueViolation
    ∧ (∀ e : QueryError, ∃ st msg,
        createCatch e = Response.renderPage st (RenderInput.mk [] none (some msg)))
    ∧ getIndex (DB.mk [User.mk 1 "Ada" "ada@example.com" none 5 5] 2)
        = Response.renderPage 200 (RenderInput.mk
            (selectAllDesc (DB.mk [User.mk 1 "Ada" "ada@example.com" none 5 5] 2))
            (some none) none) :=
  C10_error_render_empty (DB.mk [User.mk 1 "Ada" "ada@example.com" none 5 5] 2) 8
    (ReqBody.mk "Zoe" "ada@example.com" none) (by decide) (by decide) (by decide)
